import Mathlib

/-!
# azmredis: the two HTTP handlers of `main.go`

A shallow embedding of `userHandler.createUser` and `userHandler.getUser`
(`src/main.go`, lines 65-110) together with the parts of their collaborators
that decide what the handlers do:

* `encoding/json`: a request body is represented by what `ioutil.ReadAll` and
  the JSON scanner make of it (unreadable, malformed with the scanner's error,
  or a well-formed document with its value, each number with the outcome of
  its conversion to `float64`); decoding a document into
  `map[string]interface{}` is `jsonUnmarshal`, which fails on a value that is
  not an object and on a number out of the range of `float64`;
* `net/http`: `ResponseWriter` keeps the handler's header map, the status and
  header snapshot committed by the first `WriteHeader`, and the body written;
* `go-redis/v8` and the Redis server: `HSet` / `HGetAll` against a keyspace of
  hashes, with client-side argument marshalling, transport failures and
  `WRONGTYPE` replies.
-/

namespace Azmredis

/-! ## Go maps as association lists -/

/-- A Go `map[string]T`: an association list read through the first entry of a key
and written by replacing that entry (or appending a new one). A nil map reads
like the empty map. -/
abbrev GoMap (α : Type) := List (String × α)

/-- Map lookup: `m[k]`, with `none` for an absent key. -/
def mapGet {α : Type} : GoMap α → String → Option α
  | [], _ => none
  | (k', v) :: rest, k => if k' = k then some v else mapGet rest k

/-- Map assignment: `m[k] = v`. -/
def mapSet {α : Type} : GoMap α → String → α → GoMap α
  | [], k, v => [(k, v)]
  | (k', v') :: rest, k, v =>
    if k' = k then (k, v) :: rest else (k', v') :: mapSet rest k v

/-- Assigning a list of entries in order: `m[k1] = v1; m[k2] = v2; ...`. -/
def setAll {α : Type} (m : GoMap α) (kvs : List (String × α)) : GoMap α :=
  kvs.foldl (fun m kv => mapSet m kv.1 kv.2) m

/-- The keys of a map, in representation order. -/
def mapKeys {α : Type} (m : GoMap α) : List String := m.map Prod.fst

/-! ## JSON values and request bodies -/

/-- A well-formed JSON value as it stands in the document. A number is given by its
literal and by what `strconv.ParseFloat(literal, 64)` makes of it: `some text` when
the literal is within the range of `float64`, `text` being the decimal text
`strconv.AppendFloat(_, f, 'f', -1, 64)` gives for the parsed `f` (which determines
`f`); `none` when the literal is out of range (`1e400`). Object members are in
document order, duplicates included. -/
inductive JSONDoc where
  | null
  | bool (b : Bool)
  | number (literal : String) (float64 : Option String)
  | string (s : String)
  | array (items : List JSONDoc)
  | object (members : List (String × JSONDoc))

/-- A decoded JSON value, as `encoding/json` stores it in an `interface{}`:
`nil`, `bool`, `float64` (represented by its `'f', -1` decimal text), `string`,
`[]interface{}` or `map[string]interface{}`. -/
inductive JSONValue where
  | null
  | bool (b : Bool)
  | number (text : String)
  | string (s : String)
  | array (items : List JSONValue)
  | object (members : List (String × JSONValue))

/-- What the bytes of a request body are to the JSON scanner: malformed text, with
the `SyntaxError` message of `json.Unmarshal` (which also covers nesting deeper
than the scanner allows), or one well-formed document. -/
inductive Payload where
  | malformed (err : String)
  | document (v : JSONDoc)

/-- The request body as `ioutil.ReadAll(r.Body)` finds it. -/
inductive Body where
  | unreadable (err : String)
  | bytes (payload : Payload)

/-- The part of `*http.Request` the handlers read: the body and the route
variables of `mux.Vars(r)`. -/
structure Request where
  body : Body
  vars : GoMap String

/-- Result of `ioutil.ReadAll(r.Body)`. -/
def ioutilReadAll (b : Body) : Except String Payload :=
  match b with
  | .unreadable err => .error err
  | .bytes p => .ok p

mutual
/-- The literal of the first number of a value, in document order, that is out of
the range of `float64`: the number whose conversion error the decoder saves. -/
def rangeError : JSONDoc → Option String
  | .number literal none => some literal
  | .array items => rangeErrorItems items
  | .object members => rangeErrorMembers members
  | _ => none
/-- The first out-of-range number among the items of an array. -/
def rangeErrorItems : List JSONDoc → Option String
  | [] => none
  | d :: rest =>
    match rangeError d with
    | some literal => some literal
    | none => rangeErrorItems rest
/-- The first out-of-range number among the members of an object. -/
def rangeErrorMembers : List (String × JSONDoc) → Option String
  | [] => none
  | (_, d) :: rest =>
    match rangeError d with
    | some literal => some literal
    | none => rangeErrorMembers rest
end

mutual
/-- The `interface{}` the decoder stores for a JSON value; for a number out of
range nothing is stored, which leaves the nil interface. A nested object is kept
as the list of its decoded members. -/
def decodeValue : JSONDoc → JSONValue
  | .null => .null
  | .bool b => .bool b
  | .number _ (some text) => .number text
  | .number _ none => .null
  | .string s => .string s
  | .array items => .array (decodeItems items)
  | .object members => .object (decodeMembers members)
/-- The decoded items of an array. -/
def decodeItems : List JSONDoc → List JSONValue
  | [] => []
  | d :: rest => decodeValue d :: decodeItems rest
/-- The decoded members of an object, in document order. -/
def decodeMembers : List (String × JSONDoc) → List (String × JSONValue)
  | [] => []
  | (k, d) :: rest => (k, decodeValue d) :: decodeMembers rest
end

/-- Decoding the members of a JSON object into a Go map: members are stored in
document order, so a repeated name keeps its last value. -/
def decodeObject (members : List (String × JSONDoc)) : GoMap JSONValue :=
  setAll [] (decodeMembers members)

/-- The word `UnmarshalTypeError` uses for a JSON value. -/
def jsonKind : JSONDoc → String
  | .null => "null"
  | .bool _ => "bool"
  | .number _ _ => "number"
  | .string _ => "string"
  | .array _ => "array"
  | .object _ => "object"

/-- The message of the `UnmarshalTypeError` for a number out of the range of
`float64`. -/
def rangeMessage (literal : String) : String :=
  "json: cannot unmarshal number " ++ literal ++ " into Go value of type float64"

/-- Result of `json.Unmarshal(payload, &u)` for `var u map[string]interface{}`:
malformed text is a syntax error; an object fills the map, and is an
`UnmarshalTypeError` if a number anywhere in it is out of the range of `float64`;
`null` leaves the map nil and is no error; any other value is an
`UnmarshalTypeError`. -/
def jsonUnmarshal (p : Payload) : Except String (GoMap JSONValue) :=
  match p with
  | .malformed err => .error err
  | .document (.object members) =>
    match rangeErrorMembers members with
    | some literal => .error (rangeMessage literal)
    | none => .ok (decodeObject members)
  | .document .null => .ok []
  | .document v =>
    .error ("json: cannot unmarshal " ++ jsonKind v ++
      " into Go value of type map[string]interface {}")

/-- The dynamic type name Go prints for an `interface{}` value (`none` is the nil
interface, which a missing map key yields). -/
def goTypeName : Option JSONValue → String
  | none => "nil"
  | some .null => "nil"
  | some (.bool _) => "bool"
  | some (.number _) => "float64"
  | some (.string _) => "string"
  | some (.array _) => "[]interface {}"
  | some (.object _) => "map[string]interface {}"

/-- The single-value type assertion `x.(string)`: the string, or the run-time
panic `interface conversion: interface {} is T, not string`. -/
def assertString (x : Option JSONValue) : Except String String :=
  match x with
  | some (.string s) => .ok s
  | other => .error ("interface conversion: interface {} is " ++ goTypeName other ++
      ", not string")

/-! ## The response writer -/

/-- An `http.Header`, for keys already in canonical form. -/
abbrev Header := GoMap (List String)

/-- What is written to a response body: plain text, or the JSON text (with its
trailing newline) that `json.Encoder` produces for a `map[string]string`. -/
inductive Chunk where
  | text (s : String)
  | json (obj : GoMap String)

/-- The state of a `net/http` response: `header` is the map `rw.Header()` returns;
the first `WriteHeader` commits `status` and a snapshot `sent` of the header map;
`body` is what has been written; `broken` is the error every `Write` on the
connection returns, if the connection is broken. -/
structure ResponseWriter where
  header : Header
  wroteHeader : Bool
  status : Nat
  sent : Header
  body : List Chunk
  broken : Option String

/-- A response on which nothing has been done yet. -/
def newResponseWriter (broken : Option String) : ResponseWriter :=
  ⟨[], false, 0, [], [], broken⟩

/-- The status codes of `net/http` the handlers use. -/
def StatusOK : Nat := 200
def StatusCreated : Nat := 201
def StatusBadRequest : Nat := 400
def StatusNotFound : Nat := 404
def StatusInternalServerError : Nat := 500

/-- The call `rw.Header().Add(k, v)`. -/
def headerAdd (rw : ResponseWriter) (k v : String) : ResponseWriter :=
  { rw with header := mapSet rw.header k ((mapGet rw.header k).getD [] ++ [v]) }

/-- The call `rw.Header().Set(k, v)`. -/
def headerSet (rw : ResponseWriter) (k v : String) : ResponseWriter :=
  { rw with header := mapSet rw.header k [v] }

/-- The call `rw.Header().Del(k)`. -/
def headerDel (rw : ResponseWriter) (k : String) : ResponseWriter :=
  { rw with header := rw.header.filter (fun kv => decide (kv.1 ≠ k)) }

/-- The call `rw.WriteHeader(code)`: the first call commits the status and the
header map as it stands; a later call is ignored. -/
def writeHeader (rw : ResponseWriter) (code : Nat) : ResponseWriter :=
  if rw.wroteHeader then rw
  else { rw with wroteHeader := true, status := code, sent := rw.header }

/-- The call `rw.Write(data)`: commits status 200 if no header was written, then
appends to the body unless the connection is broken. -/
def write (rw : ResponseWriter) (data : Chunk) : Option String × ResponseWriter :=
  let rw1 := writeHeader rw StatusOK
  match rw1.broken with
  | some err => (some err, rw1)
  | none => (none, { rw1 with body := rw1.body ++ [data] })

/-- The call `http.Error(rw, msg, code)`: sets the two headers, writes the status and
then the message with a newline. (Newer Go releases first delete `Content-Length`,
which these handlers never set.) -/
def httpError (rw : ResponseWriter) (msg : String) (code : Nat) : ResponseWriter :=
  let rw1 := headerSet rw "Content-Type" "text/plain; charset=utf-8"
  let rw2 := headerSet rw1 "X-Content-Type-Options" "nosniff"
  let rw3 := writeHeader rw2 code
  (write rw3 (.text (msg ++ "\n"))).2

/-- The call `json.NewEncoder(rw).Encode(info)` for `info : map[string]string`:
marshalling such a map cannot fail, so the only error is that of the `Write`. -/
def jsonEncode (rw : ResponseWriter) (info : GoMap String) : Option String × ResponseWriter :=
  write rw (.json info)

/-- The values committed for a header key in the response sent. -/
def sentValues (rw : ResponseWriter) (k : String) : List String :=
  (mapGet rw.sent k).getD []

/-! ## The Redis client and server -/

/-- The value a Redis key holds: a hash (field to value), or a value of another
type (string, list, set, ...), on which hash commands fail. -/
inductive RedisValue where
  | hash (fields : GoMap String)
  | other

/-- The keyspace of the Redis server. -/
abbrev Store := GoMap RedisValue

/-- A call the handler makes on the store client. -/
inductive Call where
  | hset (key : String) (values : GoMap JSONValue)
  | hgetall (key : String)

/-- The condition of the connection to the store during one call: `up`; `down err`,
the command never reaches the server; `replyLost err`, the server executes the
command but the client reports `err` (a time-out while reading the reply). -/
inductive Link where
  | up
  | down (err : String)
  | replyLost (err : String)

/-- The `redis.Client` of the handler: the keyspace behind it and the record of the
calls made through it. -/
structure Client where
  db : Store
  calls : List Call

/-- The handler type of `main.go`. -/
structure userHandler where
  client : Client

/-- The constant `keyPrefix` (`main.go`, line 19). -/
def keyPrefix : String := "user:"

/-- The reply of the server to a hash command on a key of another type. -/
def wrongType : String := "WRONGTYPE Operation against a key holding the wrong kind of value"

/-- How go-redis v8 writes one command argument (`proto.Writer.WriteArg`): nil is
the empty string, a string itself, a `float64` its `'f', -1` text, a bool `1` or
`0`; slices and maps cannot be marshalled. -/
def writeArg : JSONValue → Except String String
  | .null => .ok ""
  | .string s => .ok s
  | .number text => .ok text
  | .bool true => .ok "1"
  | .bool false => .ok "0"
  | .array _ => .error "redis: can't marshal []interface {} (implement encoding.BinaryMarshaler)"
  | .object _ =>
    .error "redis: can't marshal map[string]interface {} (implement encoding.BinaryMarshaler)"

/-- The field/value arguments of `HSET key f1 v1 f2 v2 ...` for a
`map[string]interface{}` (`appendArg` followed by `WriteArg` on each value); the
first value that cannot be marshalled fails the whole command. -/
def hsetArgs : GoMap JSONValue → Except String (GoMap String)
  | [] => .ok []
  | (k, v) :: rest =>
    match writeArg v with
    | .error e => .error e
    | .ok t =>
      match hsetArgs rest with
      | .error e => .error e
      | .ok args => .ok ((k, t) :: args)

/-- The hash after the server has set the given fields in order. -/
def hashSetAll (fields : GoMap String) (args : GoMap String) : GoMap String :=
  setAll fields args

/-- The fields of the hash at a key; none for a key that does not hold a hash. -/
def hashAt (db : Store) (key : String) : GoMap String :=
  match mapGet db key with
  | some (.hash fields) => fields
  | _ => []

/-- The reply of `HSET`: the number of fields that were added (not just updated). -/
def hashAdded : GoMap String → GoMap String → Nat
  | _, [] => 0
  | fields, (f, v) :: rest =>
    (if (mapGet fields f).isSome then 0 else 1) + hashAdded (mapSet fields f v) rest

/-- The reply of the server to `HSET key` without field/value pairs. -/
def wrongArity : String := "ERR wrong number of arguments for 'hset' command"

/-- The server executing `HSET key args`: refused without field/value pairs or on a
key of another type; otherwise the pairs are set in the hash at the key (created
if missing). -/
def serverHSet (db : Store) (key : String) (args : GoMap String) : Except String Nat × Store :=
  if args.isEmpty then (.error wrongArity, db)
  else
    match mapGet db key with
    | some .other => (.error wrongType, db)
    | _ =>
      (.ok (hashAdded (hashAt db key) args),
        mapSet db key (.hash (hashSetAll (hashAt db key) args)))

/-- The server executing `HGETALL key`: a missing key is the empty hash. -/
def serverHGetAll (db : Store) (key : String) : Except String (GoMap String) :=
  match mapGet db key with
  | none => .ok []
  | some (.hash fields) => .ok fields
  | some .other => .error wrongType

/-- What the client reports for a server reply under the given link. -/
def received {α : Type} (link : Link) (reply : Except String α) : Except String α :=
  match link with
  | .replyLost err => .error err
  | _ => reply

/-- The call `client.HSet(ctx, key, values).Result()` with a `map[string]interface{}`. -/
def HSet (c : Client) (link : Link) (key : String) (values : GoMap JSONValue) :
    Except String Nat × Client :=
  let calls := c.calls ++ [Call.hset key values]
  match link with
  | .down err => (.error err, ⟨c.db, calls⟩)
  | _ =>
    match hsetArgs values with
    | .error err => (.error err, ⟨c.db, calls⟩)
    | .ok args =>
      let r := serverHSet c.db key args
      (received link r.1, ⟨r.2, calls⟩)

/-- The call `client.HGetAll(ctx, key).Result()`. -/
def HGetAll (c : Client) (link : Link) (key : String) :
    Except String (GoMap String) × Client :=
  let calls := c.calls ++ [Call.hgetall key]
  match link with
  | .down err => (.error err, ⟨c.db, calls⟩)
  | _ => (received link (serverHGetAll c.db key), ⟨c.db, calls⟩)

/-! ## The handlers -/

/-- How a handler invocation ends: the response writer and the client as the
handler leaves them, and the panic value if the handler panicked (in which case
`net/http` aborts the connection without a response). -/
structure Outcome where
  rw : ResponseWriter
  client : Client
  panicked : Option String

/-- The handler `userHandler.createUser` (`main.go`, lines 65-88); `link` is the
condition of the store connection during the request. -/
def createUser (uh : userHandler) (link : Link) (rw : ResponseWriter) (r : Request) : Outcome :=
  match ioutilReadAll r.body with
  | .error err => ⟨httpError rw err StatusBadRequest, uh.client, none⟩
  | .ok payload =>
    match jsonUnmarshal payload with
    | .error err => ⟨httpError rw err StatusBadRequest, uh.client, none⟩
    | .ok u =>
      match assertString (mapGet u "id") with
      | .error p => ⟨rw, uh.client, some p⟩
      | .ok userid =>
        match HSet uh.client link (keyPrefix ++ userid) u with
        | (.error err, client) => ⟨httpError rw err StatusInternalServerError, client, none⟩
        | (.ok _, client) => ⟨writeHeader rw StatusCreated, client, none⟩

/-- The lookup `mux.Vars(r)[name]`: the empty string for a missing variable. -/
def muxVar (r : Request) (name : String) : String :=
  (mapGet r.vars name).getD ""

/-- The handler `userHandler.getUser` (`main.go`, lines 90-110). -/
def getUser (uh : userHandler) (link : Link) (rw : ResponseWriter) (r : Request) : Outcome :=
  let userid := muxVar r "userid"
  match HGetAll uh.client link (keyPrefix ++ userid) with
  | (.error err, client) => ⟨httpError rw err StatusInternalServerError, client, none⟩
  | (.ok info, client) =>
    if info.length = 0 then ⟨writeHeader rw StatusNotFound, client, none⟩
    else
      let rw1 := headerAdd rw "Content-Type" "application/json"
      match jsonEncode rw1 info with
      | (some err, rw2) =>
        ⟨headerDel (httpError rw2 err StatusInternalServerError) "Content-Type", client, none⟩
      | (none, rw2) => ⟨rw2, client, none⟩

/-- The request `POST /users/` with the given body. -/
def postUsers (body : Body) : Request := ⟨body, []⟩

/-- A readable body holding the well-formed JSON document `v`. -/
def jsonBody (v : JSONDoc) : Body := .bytes (.document v)

/-- The request `GET /users/{userid}`. -/
def getUsers (userid : String) : Request :=
  ⟨.bytes (.malformed "unexpected end of JSON input"), [("userid", userid)]⟩

/-- Serving `POST /users/` with the given body on a fresh response over a working
client connection. -/
def servePost (uh : userHandler) (link : Link) (body : Body) : Outcome :=
  createUser uh link (newResponseWriter none) (postUsers body)

/-- Serving `GET /users/{userid}` on a fresh response over a working client
connection. -/
def serveGet (uh : userHandler) (link : Link) (userid : String) : Outcome :=
  getUser uh link (newResponseWriter none) (getUsers userid)

/-- The handler as the next request finds it: the same client, with the store as
the previous request left it. -/
def next (o : Outcome) : userHandler := ⟨o.client⟩

/-! ## Example inputs -/

/-- The members of the body `{"id":"42","name":"Ada"}`. -/
def adaMembers : List (String × JSONDoc) := [("id", .string "42"), ("name", .string "Ada")]

/-- The members of the body `{"id":"42","name":"Grace","lang":"COBOL"}`. -/
def graceMembers : List (String × JSONDoc) :=
  [("id", .string "42"), ("name", .string "Grace"), ("lang", .string "COBOL")]

/-- The members of the body `{"name":"Ada"}`, which has no `id`. -/
def anonMembers : List (String × JSONDoc) := [("name", .string "Ada")]

/-- The members of the body `{"id":"9","n":1e400}`: a valid JSON object with a string
`id`, whose number `1e400` is out of the range of `float64`. -/
def overflowMembers : List (String × JSONDoc) :=
  [("id", .string "9"), ("n", .number "1e400" none)]

/-- The members of the body `{"id":"9","tags":["a"]}`: the value of `tags` is an
array, which the store client cannot write as a command argument. -/
def nestedMembers : List (String × JSONDoc) :=
  [("id", .string "9"), ("tags", .array [.string "a"])]

/-- The members of the body `{"id":"7","age":36,"admin":true,"nick":null}`. -/
def mixedMembers : List (String × JSONDoc) :=
  [("id", .string "7"), ("age", .number "36" (some "36")), ("admin", .bool true),
    ("nick", .null)]

/-- A handler whose store is empty. -/
def emptyHandler : userHandler := ⟨⟨[], []⟩⟩

/-- A handler whose store holds the hash `id = 42, name = Ada` under `user:42`. -/
def adaHandler : userHandler := ⟨⟨[("user:42", .hash [("id", "42"), ("name", "Ada")])], []⟩⟩

/-- A handler whose store holds a plain string under `user:42`. -/
def strayHandler : userHandler := ⟨⟨[("user:42", .other)], []⟩⟩

/-! ## Lemmas on maps -/

theorem mapGet_mapSet_self {α : Type} (m : GoMap α) (k : String) (v : α) :
    mapGet (mapSet m k v) k = some v := by
  induction m with
  | nil => simp [mapSet, mapGet]
  | cons hd tl ih =>
    obtain ⟨k', v'⟩ := hd
    by_cases h : k' = k
    · simp [mapSet, mapGet, h]
    · simp [mapSet, mapGet, h, ih]

theorem mapGet_mapSet_ne {α : Type} (m : GoMap α) (k k' : String) (v : α) (h : k' ≠ k) :
    mapGet (mapSet m k v) k' = mapGet m k' := by
  induction m with
  | nil => simp [mapSet, mapGet, h.symm]
  | cons hd tl ih =>
    obtain ⟨k0, v0⟩ := hd
    by_cases h0 : k0 = k
    · subst h0
      simp [mapSet, mapGet, h.symm]
    · by_cases h1 : k0 = k'
      · subst h1
        simp [mapSet, mapGet, h0]
      · simp [mapSet, mapGet, h0, h1, ih]

theorem mapGet_eq_none_iff {α : Type} (m : GoMap α) (k : String) :
    mapGet m k = none ↔ k ∉ mapKeys m := by
  induction m with
  | nil => simp [mapGet, mapKeys]
  | cons hd tl ih =>
    obtain ⟨k0, v0⟩ := hd
    by_cases h0 : k0 = k
    · simp [mapGet, mapKeys, h0]
    · have h1 : ¬ k = k0 := fun e => h0 e.symm
      simpa [mapGet, mapKeys, h0, h1] using ih

theorem mapGet_mem {α : Type} (m : GoMap α) (k : String) (v : α)
    (h : mapGet m k = some v) : (k, v) ∈ m := by
  induction m with
  | nil => simp [mapGet] at h
  | cons hd tl ih =>
    obtain ⟨k0, v0⟩ := hd
    by_cases h0 : k0 = k
    · simp [mapGet, h0] at h
      simp [h0, h]
    · simp [mapGet, h0] at h
      exact List.mem_cons_of_mem _ (ih h)

theorem mapGet_isSome_of_key {α : Type} (m : GoMap α) (k : String)
    (h : k ∈ mapKeys m) : ∃ v, mapGet m k = some v := by
  cases hg : mapGet m k with
  | none => exact absurd h ((mapGet_eq_none_iff m k).1 hg)
  | some v => exact ⟨v, rfl⟩

theorem mem_mapKeys_mapSet {α : Type} (m : GoMap α) (k k' : String) (v : α) :
    k' ∈ mapKeys (mapSet m k v) ↔ k' = k ∨ k' ∈ mapKeys m := by
  induction m with
  | nil => simp [mapSet, mapKeys]
  | cons hd tl ih =>
    obtain ⟨k0, v0⟩ := hd
    by_cases h0 : k0 = k
    · subst h0
      simp [mapSet, mapKeys]
    · have ih' : k' ∈ List.map Prod.fst (mapSet tl k v) ↔ k' = k ∨ k' ∈ List.map Prod.fst tl := ih
      simp only [mapSet, h0, if_false, mapKeys, List.map_cons, List.mem_cons, ih']
      tauto

theorem nodup_mapKeys_mapSet {α : Type} (m : GoMap α) (k : String) (v : α)
    (h : (mapKeys m).Nodup) : (mapKeys (mapSet m k v)).Nodup := by
  induction m with
  | nil => simp [mapSet, mapKeys]
  | cons hd tl ih =>
    obtain ⟨k0, v0⟩ := hd
    have hk0 : k0 ∉ mapKeys tl := (List.nodup_cons.1 h).1
    have htl : (mapKeys tl).Nodup := (List.nodup_cons.1 h).2
    by_cases h0 : k0 = k
    · subst h0
      simpa [mapSet, mapKeys] using h
    · have hnot : k0 ∉ mapKeys (mapSet tl k v) := by
        rw [mem_mapKeys_mapSet]
        intro hc
        rcases hc with hc | hc
        · exact h0 hc
        · exact hk0 hc
      have hcons : (k0 :: mapKeys (mapSet tl k v)).Nodup := List.nodup_cons.2 ⟨hnot, ih htl⟩
      simpa [mapSet, h0, mapKeys] using hcons

theorem setAll_nil {α : Type} (m : GoMap α) : setAll m [] = m := rfl

theorem setAll_cons {α : Type} (m : GoMap α) (kv : String × α) (kvs : List (String × α)) :
    setAll m (kv :: kvs) = setAll (mapSet m kv.1 kv.2) kvs := rfl

theorem decodeObject_eq (members : List (String × JSONDoc)) :
    decodeObject members = setAll [] (decodeMembers members) := rfl

theorem mapKeys_decodeMembers (members : List (String × JSONDoc)) :
    mapKeys (decodeMembers members) = mapKeys members := by
  induction members with
  | nil => rfl
  | cons kd rest ih =>
    obtain ⟨k, d⟩ := kd
    have ih' : List.map Prod.fst (decodeMembers rest) = List.map Prod.fst rest := ih
    simp [decodeMembers, mapKeys, ih']

theorem mem_decodeMembers (members : List (String × JSONDoc)) (k : String) (v : JSONValue)
    (h : (k, v) ∈ decodeMembers members) : ∃ d, (k, d) ∈ members ∧ decodeValue d = v := by
  induction members with
  | nil => simp [decodeMembers] at h
  | cons kd rest ih =>
    obtain ⟨k0, d0⟩ := kd
    simp only [decodeMembers, List.mem_cons, Prod.mk.injEq] at h
    rcases h with ⟨hk, hv⟩ | h
    · subst hk
      exact ⟨d0, by simp, hv.symm⟩
    · obtain ⟨d, hd, hv⟩ := ih h
      exact ⟨d, List.mem_cons_of_mem _ hd, hv⟩

theorem hashSetAll_eq (fields args : GoMap String) :
    hashSetAll fields args = setAll fields args := rfl

theorem nodup_mapKeys_setAll {α : Type} (kvs : List (String × α)) (m : GoMap α)
    (h : (mapKeys m).Nodup) : (mapKeys (setAll m kvs)).Nodup := by
  induction kvs generalizing m with
  | nil => simpa [setAll_nil] using h
  | cons kv rest ih =>
    rw [setAll_cons]
    exact ih _ (nodup_mapKeys_mapSet m kv.1 kv.2 h)

theorem mem_mapKeys_setAll {α : Type} (kvs : List (String × α)) (m : GoMap α) (k : String) :
    k ∈ mapKeys (setAll m kvs) ↔ k ∈ mapKeys m ∨ k ∈ mapKeys kvs := by
  induction kvs generalizing m with
  | nil => simp [setAll_nil, mapKeys]
  | cons kv rest ih =>
    rw [setAll_cons, ih, mem_mapKeys_mapSet]
    simp only [mapKeys, List.map_cons, List.mem_cons]
    tauto

theorem mapGet_setAll_of_not_key {α : Type} (kvs : List (String × α)) (m : GoMap α)
    (k : String) (h : k ∉ mapKeys kvs) : mapGet (setAll m kvs) k = mapGet m k := by
  induction kvs generalizing m with
  | nil => rfl
  | cons kv rest ih =>
    have hk : k ≠ kv.1 := by
      intro e
      exact h (by simp [mapKeys, e])
    have hrest : k ∉ mapKeys rest := by
      intro e
      exact h (by simpa [mapKeys] using Or.inr e)
    rw [setAll_cons, ih _ hrest, mapGet_mapSet_ne m kv.1 k kv.2 hk]

theorem mapGet_setAll_of_nodup {α : Type} (kvs : List (String × α)) (m : GoMap α)
    (k : String) (v : α) (hn : (mapKeys kvs).Nodup) (h : mapGet kvs k = some v) :
    mapGet (setAll m kvs) k = some v := by
  induction kvs generalizing m with
  | nil => simp [mapGet] at h
  | cons kv rest ih =>
    obtain ⟨k0, v0⟩ := kv
    have hk0 : k0 ∉ mapKeys rest := by
      have := List.nodup_cons.1 hn
      exact this.1
    have hrest : (mapKeys rest).Nodup := (List.nodup_cons.1 hn).2
    rw [setAll_cons]
    by_cases h0 : k0 = k
    · subst h0
      simp [mapGet] at h
      subst h
      rw [mapGet_setAll_of_not_key rest _ k0 hk0]
      exact mapGet_mapSet_self m k0 v0
    · simp [mapGet, h0] at h
      exact ih _ hrest h

theorem mapGet_setAll_mem {α : Type} (kvs : List (String × α)) (m : GoMap α)
    (k : String) (v : α) (h : mapGet (setAll m kvs) k = some v) :
    mapGet m k = some v ∨ (k, v) ∈ kvs := by
  induction kvs generalizing m with
  | nil => exact Or.inl h
  | cons kv rest ih =>
    obtain ⟨k0, v0⟩ := kv
    rw [setAll_cons] at h
    rcases ih _ h with h1 | h1
    · by_cases h0 : k = k0
      · subst h0
        rw [mapGet_mapSet_self] at h1
        cases h1
        exact Or.inr (by simp)
      · rw [mapGet_mapSet_ne m k0 k v0 h0] at h1
        exact Or.inl h1
    · exact Or.inr (List.mem_cons_of_mem _ h1)

theorem nodup_mapKeys_decodeObject (members : List (String × JSONDoc)) :
    (mapKeys (decodeObject members)).Nodup :=
  nodup_mapKeys_setAll (decodeMembers members) [] (by simp [mapKeys])

theorem mem_mapKeys_decodeObject (members : List (String × JSONDoc)) (k : String) :
    k ∈ mapKeys (decodeObject members) ↔ k ∈ mapKeys members := by
  rw [decodeObject_eq, mem_mapKeys_setAll, mapKeys_decodeMembers]
  simp [mapKeys]

/-- Every member name of a JSON object is a key of the decoded map, bound to the
decoding of a value the object gives for that name. -/
theorem decodeObject_of_name (members : List (String × JSONDoc)) (k : String)
    (h : k ∈ mapKeys members) :
    ∃ d v, (k, d) ∈ members ∧ decodeValue d = v ∧ mapGet (decodeObject members) k = some v := by
  have hk : k ∈ mapKeys (decodeObject members) := (mem_mapKeys_decodeObject members k).2 h
  obtain ⟨v, hv⟩ := mapGet_isSome_of_key _ k hk
  rcases mapGet_setAll_mem (decodeMembers members) [] k v hv with h1 | h1
  · simp [mapGet] at h1
  · obtain ⟨d, hd, hdv⟩ := mem_decodeMembers members k v h1
    exact ⟨d, v, hd, hdv, hv⟩

/-- An object none of whose numbers is out of range decodes without error. -/
theorem jsonUnmarshal_object (members : List (String × JSONDoc))
    (hfit : rangeErrorMembers members = none) :
    jsonUnmarshal (.document (.object members)) = .ok (decodeObject members) := by
  simp [jsonUnmarshal, hfit]

/-- An object that decodes without error has no number out of range, and decodes to
the map of its members. -/
theorem jsonUnmarshal_object_ok (members : List (String × JSONDoc)) (u : GoMap JSONValue)
    (h : jsonUnmarshal (.document (.object members)) = .ok u) :
    rangeErrorMembers members = none ∧ u = decodeObject members := by
  unfold jsonUnmarshal at h
  cases hr : rangeErrorMembers members with
  | some literal => simp [hr] at h
  | none =>
    simp [hr] at h
    exact ⟨rfl, h.symm⟩

/-- An object with a number out of range is an `UnmarshalTypeError`. -/
theorem jsonUnmarshal_object_range (members : List (String × JSONDoc)) (literal : String)
    (h : rangeErrorMembers members = some literal) :
    jsonUnmarshal (.document (.object members)) = .error (rangeMessage literal) := by
  simp [jsonUnmarshal, h]

/-! ## Lemmas on the store client -/

theorem hsetArgs_keys (u : GoMap JSONValue) (args : GoMap String)
    (h : hsetArgs u = .ok args) : mapKeys args = mapKeys u := by
  induction u generalizing args with
  | nil =>
    simp [hsetArgs] at h
    subst h
    rfl
  | cons kv rest ih =>
    obtain ⟨k0, v0⟩ := kv
    simp only [hsetArgs] at h
    cases hw : writeArg v0 with
    | error e => simp [hw] at h
    | ok t =>
      cases hr : hsetArgs rest with
      | error e => simp [hw, hr] at h
      | ok args' =>
        simp [hw, hr] at h
        subst h
        simp [mapKeys, List.map_cons]
        exact ih args' hr

theorem hsetArgs_get (u : GoMap JSONValue) (args : GoMap String)
    (h : hsetArgs u = .ok args) (k : String) (v : JSONValue) (hv : mapGet u k = some v) :
    ∃ t, writeArg v = .ok t ∧ mapGet args k = some t := by
  induction u generalizing args with
  | nil => simp [mapGet] at hv
  | cons kv rest ih =>
    obtain ⟨k0, v0⟩ := kv
    simp only [hsetArgs] at h
    cases hw : writeArg v0 with
    | error e => simp [hw] at h
    | ok t =>
      cases hr : hsetArgs rest with
      | error e => simp [hw, hr] at h
      | ok args' =>
        simp [hw, hr] at h
        subst h
        by_cases h0 : k0 = k
        · simp [mapGet, h0] at hv
          subst hv
          exact ⟨t, hw, by simp [mapGet, h0]⟩
        · simp [mapGet, h0] at hv
          obtain ⟨t', ht', hg⟩ := ih args' hr hv
          exact ⟨t', ht', by simpa [mapGet, h0] using hg⟩

/-- A successful `HSet` had its arguments marshalled, found no value of another
type under the key, and left the hash with the arguments set on top of the
fields it had. -/
theorem HSet_ok (c : Client) (link : Link) (key : String) (u : GoMap JSONValue) (n : Nat)
    (h : (HSet c link key u).1 = .ok n) :
    ∃ args, hsetArgs u = .ok args ∧
      (HSet c link key u).2 =
        ⟨mapSet c.db key (.hash (hashSetAll (hashAt c.db key) args)),
          c.calls ++ [Call.hset key u]⟩ := by
  unfold HSet at h ⊢
  cases link with
  | down err => simp at h
  | replyLost err =>
    cases ha : hsetArgs u with
    | error e => simp [ha] at h
    | ok args => simp [ha, received] at h
  | up =>
    cases ha : hsetArgs u with
    | error e => simp [ha] at h
    | ok args =>
      refine ⟨args, rfl, ?_⟩
      simp only [ha, received] at h ⊢
      unfold serverHSet at h ⊢
      by_cases he : args.isEmpty = true
      · simp [he] at h
      · cases hg : mapGet c.db key with
        | none => simp [he, hg]
        | some val =>
          cases val with
          | hash fields => simp [he, hg]
          | other => simp [he, hg] at h

/-- Every `HSet` records the call, whatever its result. -/
theorem HSet_calls (c : Client) (link : Link) (key : String) (u : GoMap JSONValue) :
    (HSet c link key u).2.calls = c.calls ++ [Call.hset key u] := by
  unfold HSet
  cases link <;> simp <;> cases hsetArgs u <;> simp

theorem HGetAll_snd (c : Client) (link : Link) (key : String) :
    (HGetAll c link key).2 = ⟨c.db, c.calls ++ [Call.hgetall key]⟩ := by
  unfold HGetAll
  cases link <;> rfl

/-- A successful `HGetAll` returns the fields of the hash at the key. -/
theorem HGetAll_ok (c : Client) (link : Link) (key : String) (info : GoMap String)
    (h : (HGetAll c link key).1 = .ok info) : info = hashAt c.db key := by
  unfold HGetAll at h
  cases link with
  | down err => simp at h
  | replyLost err => simp [received] at h
  | up =>
    simp only [received, serverHGetAll] at h
    cases hg : mapGet c.db key with
    | none =>
      simp [hg] at h
      simp [hashAt, hg, h]
    | some val =>
      cases val with
      | hash fields =>
        simp [hg] at h
        simp [hashAt, hg, h]
      | other => simp [hg] at h

theorem HGetAll_up_of_hash (c : Client) (key : String) (fields : GoMap String)
    (h : mapGet c.db key = some (.hash fields)) :
    (HGetAll c Link.up key).1 = .ok fields := by
  simp [HGetAll, received, serverHGetAll, h]

/-! ## Equations for the handlers -/

theorem createUser_of_HSet_ok (uh : userHandler) (link : Link) (rw : ResponseWriter)
    (r : Request) (p : Payload) (u : GoMap JSONValue) (s : String) (n : Nat)
    (hb : r.body = .bytes p) (hu : jsonUnmarshal p = .ok u)
    (hid : mapGet u "id" = some (.string s))
    (h : (HSet uh.client link (keyPrefix ++ s) u).1 = .ok n) :
    createUser uh link rw r =
      ⟨writeHeader rw StatusCreated, (HSet uh.client link (keyPrefix ++ s) u).2, none⟩ := by
  unfold createUser
  simp only [hb, ioutilReadAll, hu, hid, assertString]
  cases hh : HSet uh.client link (keyPrefix ++ s) u with
  | mk res c' =>
    rw [hh] at h
    simp only at h
    subst h
    rfl

theorem createUser_of_HSet_error (uh : userHandler) (link : Link) (rw : ResponseWriter)
    (r : Request) (p : Payload) (u : GoMap JSONValue) (s : String) (e : String)
    (hb : r.body = .bytes p) (hu : jsonUnmarshal p = .ok u)
    (hid : mapGet u "id" = some (.string s))
    (h : (HSet uh.client link (keyPrefix ++ s) u).1 = .error e) :
    createUser uh link rw r =
      ⟨httpError rw e StatusInternalServerError,
        (HSet uh.client link (keyPrefix ++ s) u).2, none⟩ := by
  unfold createUser
  simp only [hb, ioutilReadAll, hu, hid, assertString]
  cases hh : HSet uh.client link (keyPrefix ++ s) u with
  | mk res c' =>
    rw [hh] at h
    simp only at h
    subst h
    rfl

theorem muxVar_getUsers (userid : String) : muxVar (getUsers userid) "userid" = userid := by
  simp [muxVar, getUsers, mapGet]

theorem getUser_of_HGetAll_error (uh : userHandler) (link : Link) (rw : ResponseWriter)
    (r : Request) (e : String)
    (h : (HGetAll uh.client link (keyPrefix ++ muxVar r "userid")).1 = .error e) :
    getUser uh link rw r =
      ⟨httpError rw e StatusInternalServerError,
        (HGetAll uh.client link (keyPrefix ++ muxVar r "userid")).2, none⟩ := by
  unfold getUser
  dsimp only
  cases hh : HGetAll uh.client link (keyPrefix ++ muxVar r "userid") with
  | mk res c' =>
    rw [hh] at h
    simp only at h
    subst h
    rfl

theorem getUser_of_HGetAll_ok (uh : userHandler) (link : Link) (rw : ResponseWriter)
    (r : Request) (info : GoMap String)
    (h : (HGetAll uh.client link (keyPrefix ++ muxVar r "userid")).1 = .ok info) :
    getUser uh link rw r =
      if info.length = 0 then
        ⟨writeHeader rw StatusNotFound,
          (HGetAll uh.client link (keyPrefix ++ muxVar r "userid")).2, none⟩
      else
        match jsonEncode (headerAdd rw "Content-Type" "application/json") info with
        | (some err, rw2) =>
          ⟨headerDel (httpError rw2 err StatusInternalServerError) "Content-Type",
            (HGetAll uh.client link (keyPrefix ++ muxVar r "userid")).2, none⟩
        | (none, rw2) =>
          ⟨rw2, (HGetAll uh.client link (keyPrefix ++ muxVar r "userid")).2, none⟩ := by
  unfold getUser
  dsimp only
  cases hh : HGetAll uh.client link (keyPrefix ++ muxVar r "userid") with
  | mk res c' =>
    rw [hh] at h
    simp only at h
    subst h
    rfl

/-! ## Responses on a fresh writer -/

theorem httpError_fresh (msg : String) (code : Nat) :
    httpError (newResponseWriter none) msg code =
      ⟨[("Content-Type", ["text/plain; charset=utf-8"]), ("X-Content-Type-Options", ["nosniff"])],
        true, code,
        [("Content-Type", ["text/plain; charset=utf-8"]), ("X-Content-Type-Options", ["nosniff"])],
        [.text (msg ++ "\n")], none⟩ := by
  simp [httpError, newResponseWriter, headerSet, writeHeader, write, mapSet, StatusOK]

theorem writeHeader_fresh (broken : Option String) (code : Nat) :
    writeHeader (newResponseWriter broken) code = ⟨[], true, code, [], [], broken⟩ := by
  simp [newResponseWriter, writeHeader]

theorem jsonEncode_fresh (info : GoMap String) :
    jsonEncode (headerAdd (newResponseWriter none) "Content-Type" "application/json") info =
      (none, ⟨[("Content-Type", ["application/json"])], true, StatusOK,
        [("Content-Type", ["application/json"])], [.json info], none⟩) := by
  simp [jsonEncode, headerAdd, newResponseWriter, writeHeader, write, mapSet, mapGet]

theorem jsonEncode_broken (info : GoMap String) (err : String) :
    jsonEncode (headerAdd (newResponseWriter (some err)) "Content-Type" "application/json") info =
      (some err, ⟨[("Content-Type", ["application/json"])], true, StatusOK,
        [("Content-Type", ["application/json"])], [], some err⟩) := by
  simp [jsonEncode, headerAdd, newResponseWriter, writeHeader, write, mapSet, mapGet]

/-- A body on which `json.Unmarshal` reports an error (malformed text, a well-formed
array, string, number or boolean, or an object with a number out of range) is
answered with 400 and the error message, and the store client is left as it was. -/
theorem createUser_unmarshal_error (uh : userHandler) (link : Link) (p : Payload) (e : String)
    (hu : jsonUnmarshal p = .error e) :
    servePost uh link (.bytes p) =
      ⟨⟨[("Content-Type", ["text/plain; charset=utf-8"]),
            ("X-Content-Type-Options", ["nosniff"])],
          true, StatusBadRequest,
          [("Content-Type", ["text/plain; charset=utf-8"]),
            ("X-Content-Type-Options", ["nosniff"])],
          [.text (e ++ "\n")], none⟩,
        uh.client, none⟩ := by
  unfold servePost createUser
  simp only [postUsers, ioutilReadAll, hu, httpError_fresh]

/-- A `createUser` that answers 201 on a fresh response decoded its body without
error and had its `HSet` succeed. -/
theorem HSet_ok_of_created (uh : userHandler) (link : Link)
    (members : List (String × JSONDoc)) (s : String)
    (hid : mapGet (decodeObject members) "id" = some (.string s))
    (h : (servePost uh link (jsonBody (.object members))).rw.status = StatusCreated) :
    rangeErrorMembers members = none ∧
    ∃ n, (HSet uh.client link (keyPrefix ++ s) (decodeObject members)).1 = .ok n := by
  cases hr : rangeErrorMembers members with
  | some literal =>
    have hc := createUser_unmarshal_error uh link (.document (.object members))
      (rangeMessage literal) (jsonUnmarshal_object_range members literal hr)
    unfold jsonBody at h
    rw [hc] at h
    simp [StatusBadRequest, StatusCreated] at h
  | none =>
    refine ⟨rfl, ?_⟩
    cases hh : (HSet uh.client link (keyPrefix ++ s) (decodeObject members)).1 with
    | ok n => exact ⟨n, rfl⟩
    | error e =>
      have hc := createUser_of_HSet_error uh link (newResponseWriter none)
        (postUsers (jsonBody (.object members))) (.document (.object members))
        (decodeObject members) s e rfl (jsonUnmarshal_object members hr) hid hh
      unfold servePost at h
      rw [hc, httpError_fresh] at h
      simp [StatusInternalServerError, StatusCreated] at h

/-- The store after a successful `createUser`: the hash at the user's key has the
submitted fields set on top of those it had; nothing else is touched. -/
theorem servePost_ok (uh : userHandler) (link : Link)
    (members : List (String × JSONDoc)) (s : String) (n : Nat)
    (hfit : rangeErrorMembers members = none)
    (hid : mapGet (decodeObject members) "id" = some (.string s))
    (h : (HSet uh.client link (keyPrefix ++ s) (decodeObject members)).1 = .ok n) :
    ∃ args, hsetArgs (decodeObject members) = .ok args ∧
      servePost uh link (jsonBody (.object members)) =
        ⟨⟨[], true, StatusCreated, [], [], none⟩,
          ⟨mapSet uh.client.db (keyPrefix ++ s)
              (.hash (hashSetAll (hashAt uh.client.db (keyPrefix ++ s)) args)),
            uh.client.calls ++ [Call.hset (keyPrefix ++ s) (decodeObject members)]⟩,
          none⟩ := by
  obtain ⟨args, ha, hc⟩ := HSet_ok uh.client link (keyPrefix ++ s) (decodeObject members) n h
  refine ⟨args, ha, ?_⟩
  have := createUser_of_HSet_ok uh link (newResponseWriter none)
    (postUsers (jsonBody (.object members))) (.document (.object members))
    (decodeObject members) s n rfl (jsonUnmarshal_object members hfit) hid h
  unfold servePost
  rw [this, hc, writeHeader_fresh]

theorem hashAt_mapSet_self (db : Store) (key : String) (fields : GoMap String) :
    hashAt (mapSet db key (.hash fields)) key = fields := by
  simp [hashAt, mapGet_mapSet_self]

/-- What a successful `HSet` leaves in the hash, field by field. -/
theorem hashSetAll_get (u : GoMap JSONValue) (args old : GoMap String)
    (hn : (mapKeys u).Nodup) (ha : hsetArgs u = .ok args) (k : String) :
    (∀ v, mapGet u k = some v →
      ∃ t, writeArg v = .ok t ∧ mapGet (hashSetAll old args) k = some t) ∧
    (k ∉ mapKeys u → mapGet (hashSetAll old args) k = mapGet old k) := by
  have hkeys := hsetArgs_keys u args ha
  constructor
  · intro v hv
    obtain ⟨t, ht, hg⟩ := hsetArgs_get u args ha k v hv
    refine ⟨t, ht, ?_⟩
    rw [hashSetAll_eq]
    exact mapGet_setAll_of_nodup args old k t (by rw [hkeys]; exact hn) hg
  · intro hk
    rw [hashSetAll_eq]
    exact mapGet_setAll_of_not_key args old k (by rw [hkeys]; exact hk)

/-- Serving a `GET` whose key holds a non-empty hash, with the store reachable. -/
theorem serveGet_found (uh : userHandler) (userid : String) (fields : GoMap String)
    (hkey : mapGet uh.client.db (keyPrefix ++ userid) = some (.hash fields))
    (hne : fields ≠ []) :
    serveGet uh Link.up userid =
      ⟨⟨[("Content-Type", ["application/json"])], true, StatusOK,
          [("Content-Type", ["application/json"])], [.json fields], none⟩,
        ⟨uh.client.db, uh.client.calls ++ [Call.hgetall (keyPrefix ++ userid)]⟩, none⟩ := by
  have hr : (HGetAll uh.client Link.up (keyPrefix ++ muxVar (getUsers userid) "userid")).1 =
      .ok fields := by
    rw [muxVar_getUsers]
    exact HGetAll_up_of_hash uh.client _ fields hkey
  have hlen : ¬ fields.length = 0 := by
    intro h0
    exact hne (List.length_eq_zero.1 h0)
  unfold serveGet
  rw [getUser_of_HGetAll_ok uh Link.up _ _ fields hr, if_neg hlen, jsonEncode_fresh,
    HGetAll_snd, muxVar_getUsers]

/-- The text go-redis writes for each kind of scalar value. -/
theorem writeArg_text (v : JSONValue) (t : String) (h : writeArg v = .ok t) :
    (∀ x, v = .string x → t = x) ∧ (∀ x, v = .number x → t = x) ∧
    (v = .bool true → t = "1") ∧ (v = .bool false → t = "0") ∧ (v = .null → t = "") := by
  refine ⟨?_, ?_, ?_, ?_, ?_⟩
  · intro x hx
    subst hx
    simp [writeArg] at h
    exact h.symm
  · intro x hx
    subst hx
    simp [writeArg] at h
    exact h.symm
  · intro hx
    subst hx
    simp [writeArg] at h
    exact h.symm
  · intro hx
    subst hx
    simp [writeArg] at h
    exact h.symm
  · intro hx
    subst hx
    simp [writeArg] at h
    exact h.symm

/-- The hash under the user's key after a `createUser` that answered 201, field by
field: a submitted name is bound to the text written for its value, any other name
keeps what it had. -/
theorem hash_after_created (uh : userHandler) (link : Link)
    (members : List (String × JSONDoc)) (s : String)
    (hid : mapGet (decodeObject members) "id" = some (.string s))
    (h : (servePost uh link (jsonBody (.object members))).rw.status = StatusCreated) :
    ∃ fields,
      mapGet (servePost uh link (jsonBody (.object members))).client.db (keyPrefix ++ s) =
        some (.hash fields) ∧
      fields ≠ [] ∧
      (∀ k v, mapGet (decodeObject members) k = some v →
        ∃ t, writeArg v = .ok t ∧ mapGet fields k = some t) ∧
      (∀ k, k ∉ mapKeys members →
        mapGet fields k = mapGet (hashAt uh.client.db (keyPrefix ++ s)) k) := by
  obtain ⟨hfit, n, hn⟩ := HSet_ok_of_created uh link members s hid h
  obtain ⟨args, ha, hp⟩ := servePost_ok uh link members s n hfit hid hn
  have hget := hashSetAll_get (decodeObject members) args
    (hashAt uh.client.db (keyPrefix ++ s)) (nodup_mapKeys_decodeObject members) ha
  refine ⟨hashSetAll (hashAt uh.client.db (keyPrefix ++ s)) args, ?_, ?_, ?_, ?_⟩
  · rw [hp]
    simp [mapGet_mapSet_self]
  · intro he
    obtain ⟨t, _, hg⟩ := (hget "id").1 _ hid
    rw [he] at hg
    simp [mapGet] at hg
  · intro k v hv
    exact (hget k).1 v hv
  · intro k hk
    apply (hget k).2
    rw [mem_mapKeys_decodeObject]
    exact hk

/-- The text a scalar value of the submitted object is stored as, read off a hash
in which every submitted value is bound to what `writeArg` gives. -/
theorem stored_text (u : GoMap JSONValue) (fields : GoMap String)
    (hsub : ∀ k v, mapGet u k = some v → ∃ t, writeArg v = .ok t ∧ mapGet fields k = some t) :
    (∀ k x, mapGet u k = some (.string x) → mapGet fields k = some x) ∧
    (∀ k x, mapGet u k = some (.number x) → mapGet fields k = some x) ∧
    (∀ k, mapGet u k = some (.bool true) → mapGet fields k = some "1") ∧
    (∀ k, mapGet u k = some (.bool false) → mapGet fields k = some "0") ∧
    (∀ k, mapGet u k = some .null → mapGet fields k = some "") := by
  refine ⟨?_, ?_, ?_, ?_, ?_⟩
  · intro k x hk
    obtain ⟨t, ht, hg⟩ := hsub k _ hk
    rw [(writeArg_text _ t ht).1 x rfl] at hg
    exact hg
  · intro k x hk
    obtain ⟨t, ht, hg⟩ := hsub k _ hk
    rw [(writeArg_text _ t ht).2.1 x rfl] at hg
    exact hg
  · intro k hk
    obtain ⟨t, ht, hg⟩ := hsub k _ hk
    rw [(writeArg_text _ t ht).2.2.1 rfl] at hg
    exact hg
  · intro k hk
    obtain ⟨t, ht, hg⟩ := hsub k _ hk
    rw [(writeArg_text _ t ht).2.2.2.1 rfl] at hg
    exact hg
  · intro k hk
    obtain ⟨t, ht, hg⟩ := hsub k _ hk
    rw [(writeArg_text _ t ht).2.2.2.2 rfl] at hg
    exact hg

/-- A created status follows from a body that decodes and an `HSet` that succeeds. -/
theorem created_of_HSet_ok (uh : userHandler) (link : Link)
    (members : List (String × JSONDoc)) (s : String) (n : Nat)
    (hfit : rangeErrorMembers members = none)
    (hid : mapGet (decodeObject members) "id" = some (.string s))
    (h : (HSet uh.client link (keyPrefix ++ s) (decodeObject members)).1 = .ok n) :
    (servePost uh link (jsonBody (.object members))).rw.status = StatusCreated := by
  obtain ⟨args, _, hp⟩ := servePost_ok uh link members s n hfit hid h
  rw [hp]

/-! ## The claims -/

/-- C1, as amended. Round trip: for every JSON object that `json.Unmarshal` decodes
without error and whose decoded `id` is a string `s`, when the `HSet` of `createUser`
succeeds and the store is reachable for the read, `createUser` answers 201 and the
following `getUser` for `s` answers 200 with a JSON body that has every submitted field
name, bound to the text the store client writes for the decoded value of a member
of that name: a string as itself, a number as its decimal text, `true` and `false`
as `1` and `0`, `null` as the empty string. -/
theorem createUser_getUser_roundtrip (uh : userHandler) (link : Link)
    (members : List (String × JSONDoc)) (u : GoMap JSONValue) (s : String) (n : Nat)
    (hu : jsonUnmarshal (.document (.object members)) = .ok u)
    (hid : mapGet u "id" = some (.string s))
    (hset : (HSet uh.client link (keyPrefix ++ s) u).1 = .ok n) :
    (servePost uh link (jsonBody (.object members))).rw.status = StatusCreated ∧
    ∃ info,
      (serveGet (next (servePost uh link (jsonBody (.object members)))) Link.up s).rw.status =
        StatusOK ∧
      (serveGet (next (servePost uh link (jsonBody (.object members)))) Link.up s).rw.body =
        [.json info] ∧
      (∀ k, k ∈ mapKeys members →
        ∃ d v t, (k, d) ∈ members ∧ decodeValue d = v ∧ mapGet u k = some v ∧
          writeArg v = .ok t ∧ mapGet info k = some t) ∧
      (∀ k x, mapGet u k = some (.string x) → mapGet info k = some x) ∧
      (∀ k x, mapGet u k = some (.number x) → mapGet info k = some x) ∧
      (∀ k, mapGet u k = some (.bool true) → mapGet info k = some "1") ∧
      (∀ k, mapGet u k = some (.bool false) → mapGet info k = some "0") ∧
      (∀ k, mapGet u k = some .null → mapGet info k = some "") := by
  obtain ⟨hfit, hdec⟩ := jsonUnmarshal_object_ok members u hu
  subst hdec
  have hcreated := created_of_HSet_ok uh link members s n hfit hid hset
  obtain ⟨fields, hkey, hne, hsub, _⟩ := hash_after_created uh link members s hid hcreated
  have hgot := serveGet_found (next (servePost uh link (jsonBody (.object members)))) s
    fields hkey hne
  refine ⟨hcreated, fields, ?_, ?_, ?_, stored_text (decodeObject members) fields hsub⟩
  · rw [hgot]
  · rw [hgot]
  · intro k hk
    obtain ⟨d, v, hd, hdv, hv⟩ := decodeObject_of_name members k hk
    obtain ⟨t, ht, hg⟩ := hsub k v hv
    exact ⟨d, v, t, hd, hdv, hv, ht, hg⟩

/-- Witness for C1: the body `{"id":"42","name":"Ada"}` posted to an empty store. -/
theorem createUser_getUser_roundtrip_witness :
    jsonUnmarshal (.document (.object adaMembers)) = .ok (decodeObject adaMembers) ∧
    mapGet (decodeObject adaMembers) "id" = some (.string "42") ∧
    (HSet emptyHandler.client Link.up (keyPrefix ++ "42") (decodeObject adaMembers)).1 = .ok 2 ∧
    ((servePost emptyHandler Link.up (jsonBody (.object adaMembers))).rw.status = StatusCreated ∧
    ∃ info,
      (serveGet (next (servePost emptyHandler Link.up (jsonBody (.object adaMembers))))
        Link.up "42").rw.status = StatusOK ∧
      (serveGet (next (servePost emptyHandler Link.up (jsonBody (.object adaMembers))))
        Link.up "42").rw.body = [.json info] ∧
      (∀ k, k ∈ mapKeys adaMembers →
        ∃ d v t, (k, d) ∈ adaMembers ∧ decodeValue d = v ∧
          mapGet (decodeObject adaMembers) k = some v ∧
          writeArg v = .ok t ∧ mapGet info k = some t) ∧
      (∀ k x, mapGet (decodeObject adaMembers) k = some (.string x) → mapGet info k = some x) ∧
      (∀ k x, mapGet (decodeObject adaMembers) k = some (.number x) → mapGet info k = some x) ∧
      (∀ k, mapGet (decodeObject adaMembers) k = some (.bool true) →
        mapGet info k = some "1") ∧
      (∀ k, mapGet (decodeObject adaMembers) k = some (.bool false) →
        mapGet info k = some "0") ∧
      (∀ k, mapGet (decodeObject adaMembers) k = some .null → mapGet info k = some "")) :=
  ⟨rfl, rfl, rfl,
    createUser_getUser_roundtrip emptyHandler Link.up adaMembers (decodeObject adaMembers)
      "42" 2 rfl rfl rfl⟩

/-- Counterexample to C1 as stated: the body `{"id":"9","n":1e400}` is a valid
JSON object with the string id `9`, but `json.Unmarshal` reports the number as out of
range, so `createUser` answers 400 without calling the store, and the following
`getUser` for `9`, whose store read succeeds, answers 404 with an empty body, not
200. -/
theorem createUser_getUser_range_error :
    (("id", JSONDoc.string "9") ∈ overflowMembers) ∧
    jsonUnmarshal (.document (.object overflowMembers)) =
      .error "json: cannot unmarshal number 1e400 into Go value of type float64" ∧
    (servePost emptyHandler Link.up (jsonBody (.object overflowMembers))).rw.status =
      StatusBadRequest ∧
    (servePost emptyHandler Link.up (jsonBody (.object overflowMembers))).client.calls = [] ∧
    (HGetAll (next (servePost emptyHandler Link.up (jsonBody (.object overflowMembers)))).client
      Link.up (keyPrefix ++ "9")).1 = .ok [] ∧
    (serveGet (next (servePost emptyHandler Link.up (jsonBody (.object overflowMembers))))
      Link.up "9").rw.status = StatusNotFound ∧
    (serveGet (next (servePost emptyHandler Link.up (jsonBody (.object overflowMembers))))
      Link.up "9").rw.status ≠ StatusOK ∧
    (serveGet (next (servePost emptyHandler Link.up (jsonBody (.object overflowMembers))))
      Link.up "9").rw.body = [] :=
  ⟨by simp [overflowMembers], rfl, rfl, rfl, rfl, rfl, by decide, rfl⟩

/-- The scenario of the specification: `POST /users/` with `{"id":"42","name":"Ada"}`
answers 201 with an empty body, and `GET /users/42` then answers 200 with the JSON
object `{"id":"42","name":"Ada"}`. -/
theorem scenario_post_then_get :
    (servePost emptyHandler Link.up (jsonBody (.object adaMembers))).rw.status = 201 ∧
    (servePost emptyHandler Link.up (jsonBody (.object adaMembers))).rw.body = [] ∧
    (serveGet (next (servePost emptyHandler Link.up (jsonBody (.object adaMembers))))
      Link.up "42").rw.status = 200 ∧
    (serveGet (next (servePost emptyHandler Link.up (jsonBody (.object adaMembers))))
      Link.up "42").rw.body = [.json [("id", "42"), ("name", "Ada")]] :=
  ⟨rfl, rfl, rfl, rfl⟩

/-- A body with numbers, booleans and `null`: `{"id":"7","age":36,"admin":true,
"nick":null}` is stored and returned as `{"id":"7","age":"36","admin":"1","nick":""}`. -/
theorem scenario_mixed_values :
    (serveGet (next (servePost emptyHandler Link.up (jsonBody (.object mixedMembers))))
      Link.up "7").rw.body =
      [.json [("id", "7"), ("age", "36"), ("admin", "1"), ("nick", "")]] :=
  rfl

/-- A body with a nested value: `{"id":"9","tags":["a"]}` decodes, but the `HSet` call
fails in the client, which cannot marshal the array; `createUser` answers 500 and
nothing is stored. -/
theorem scenario_nested_value :
    (HSet emptyHandler.client Link.up (keyPrefix ++ "9") (decodeObject nestedMembers)).1 =
      .error "redis: can't marshal []interface {} (implement encoding.BinaryMarshaler)" ∧
    (servePost emptyHandler Link.up (jsonBody (.object nestedMembers))).rw.status = 500 ∧
    (servePost emptyHandler Link.up (jsonBody (.object nestedMembers))).client.db = [] :=
  ⟨rfl, rfl, rfl⟩

/-- A body that decodes without error to a map with no `id` makes `createUser`
panic in the type assertion of line 80, before any response is written and before
the store is called. -/
theorem createUser_panics_without_id (uh : userHandler) (link : Link) (rw : ResponseWriter)
    (r : Request) (p : Payload) (u : GoMap JSONValue)
    (hb : r.body = .bytes p) (hu : jsonUnmarshal p = .ok u) (hid : mapGet u "id" = none) :
    createUser uh link rw r =
      ⟨rw, uh.client, some "interface conversion: interface {} is nil, not string"⟩ := by
  unfold createUser
  simp only [hb, ioutilReadAll, hu, hid, assertString, goTypeName]
  rfl

/-- C2 (the code departs from the claim). For every JSON object without an `id` member
that `json.Unmarshal` decodes without error, `createUser` panics at `u["id"].(string)`:
no status is written (in particular not 400), no body, and the store client is left
as it was, with no call made. -/
theorem createUser_object_without_id (uh : userHandler) (link : Link)
    (members : List (String × JSONDoc)) (u : GoMap JSONValue)
    (hu : jsonUnmarshal (.document (.object members)) = .ok u)
    (hno : "id" ∉ mapKeys members) :
    (servePost uh link (jsonBody (.object members))).panicked =
      some "interface conversion: interface {} is nil, not string" ∧
    (servePost uh link (jsonBody (.object members))).rw.wroteHeader = false ∧
    (servePost uh link (jsonBody (.object members))).rw.status ≠ StatusBadRequest ∧
    (servePost uh link (jsonBody (.object members))).rw.body = [] ∧
    (servePost uh link (jsonBody (.object members))).client = uh.client := by
  obtain ⟨_, hdec⟩ := jsonUnmarshal_object_ok members u hu
  have hid : mapGet u "id" = none := by
    rw [hdec, mapGet_eq_none_iff, mem_mapKeys_decodeObject]
    exact hno
  have h := createUser_panics_without_id uh link (newResponseWriter none)
    (postUsers (jsonBody (.object members))) (.document (.object members)) u rfl hu hid
  unfold servePost
  rw [h]
  simp [newResponseWriter, StatusBadRequest]

/-- Witness for C2: the body `{"name":"Ada"}`. -/
theorem createUser_object_without_id_witness :
    jsonUnmarshal (.document (.object anonMembers)) = .ok (decodeObject anonMembers) ∧
    "id" ∉ mapKeys anonMembers ∧
    ((servePost emptyHandler Link.up (jsonBody (.object anonMembers))).panicked =
      some "interface conversion: interface {} is nil, not string" ∧
    (servePost emptyHandler Link.up (jsonBody (.object anonMembers))).rw.wroteHeader = false ∧
    (servePost emptyHandler Link.up (jsonBody (.object anonMembers))).rw.status ≠
      StatusBadRequest ∧
    (servePost emptyHandler Link.up (jsonBody (.object anonMembers))).rw.body = [] ∧
    (servePost emptyHandler Link.up (jsonBody (.object anonMembers))).client =
      emptyHandler.client) :=
  ⟨rfl, by decide,
    createUser_object_without_id emptyHandler Link.up anonMembers (decodeObject anonMembers)
      rfl (by decide)⟩

/-- The scenario of the specification: `POST /users/` with the body `not json`. -/
theorem scenario_not_json :
    (servePost emptyHandler Link.up
      (.bytes (.malformed "invalid character 'o' in literal null (expecting 'u')"))).rw.status
      = 400 ∧
    (servePost emptyHandler Link.up
      (.bytes (.malformed "invalid character 'o' in literal null (expecting 'u')"))).rw.body
      = [.text "invalid character 'o' in literal null (expecting 'u')\n"] ∧
    (servePost emptyHandler Link.up
      (.bytes (.malformed "invalid character 'o' in literal null (expecting 'u')"))).client
      = emptyHandler.client :=
  ⟨rfl, rfl, rfl⟩

/-- C3 (the code departs from the claim). The body `null` is not a JSON object, yet
`json.Unmarshal` accepts it and leaves the map nil, so `createUser` goes on to
`u["id"].(string)` and panics: no 400 is written and no parse error is reported. The
store client is left as it was. -/
theorem createUser_null_body (uh : userHandler) (link : Link) :
    jsonUnmarshal (.document .null) = .ok [] ∧
    (servePost uh link (jsonBody .null)).panicked =
      some "interface conversion: interface {} is nil, not string" ∧
    (servePost uh link (jsonBody .null)).rw.wroteHeader = false ∧
    (servePost uh link (jsonBody .null)).rw.status ≠ StatusBadRequest ∧
    (servePost uh link (jsonBody .null)).rw.body = [] ∧
    (servePost uh link (jsonBody .null)).client = uh.client := by
  have h := createUser_panics_without_id uh link (newResponseWriter none)
    (postUsers (jsonBody .null)) (.document .null) [] rfl rfl rfl
  unfold servePost
  rw [h]
  simp [newResponseWriter, StatusBadRequest, jsonUnmarshal]

/-- C4. For every user identifier and every store in which the user's key has no
fields, a `getUser` whose store read succeeds answers 404 with an empty body and
no header at all (so no `Content-Type: application/json`). -/
theorem getUser_not_found (uh : userHandler) (link : Link) (broken : Option String)
    (userid : String) (info : GoMap String)
    (hempty : hashAt uh.client.db (keyPrefix ++ userid) = [])
    (hread : (HGetAll uh.client link (keyPrefix ++ userid)).1 = .ok info) :
    (getUser uh link (newResponseWriter broken) (getUsers userid)).rw.status = StatusNotFound ∧
    (getUser uh link (newResponseWriter broken) (getUsers userid)).rw.body = [] ∧
    (getUser uh link (newResponseWriter broken) (getUsers userid)).rw.sent = [] ∧
    sentValues (getUser uh link (newResponseWriter broken) (getUsers userid)).rw
      "Content-Type" = [] ∧
    (getUser uh link (newResponseWriter broken) (getUsers userid)).panicked = none := by
  have hinfo : info = [] := by
    rw [HGetAll_ok uh.client link _ info hread, hempty]
  subst hinfo
  have hr : (HGetAll uh.client link (keyPrefix ++ muxVar (getUsers userid) "userid")).1 =
      .ok [] := by
    rw [muxVar_getUsers]
    exact hread
  rw [getUser_of_HGetAll_ok uh link _ _ [] hr]
  simp [writeHeader_fresh, sentValues, mapGet]

/-- Witness for C4: `GET /users/999` on a store that only has `user:42`. -/
theorem getUser_not_found_witness :
    hashAt adaHandler.client.db (keyPrefix ++ "999") = [] ∧
    (HGetAll adaHandler.client Link.up (keyPrefix ++ "999")).1 = .ok [] ∧
    ((getUser adaHandler Link.up (newResponseWriter none) (getUsers "999")).rw.status =
      StatusNotFound ∧
    (getUser adaHandler Link.up (newResponseWriter none) (getUsers "999")).rw.body = [] ∧
    (getUser adaHandler Link.up (newResponseWriter none) (getUsers "999")).rw.sent = [] ∧
    sentValues (getUser adaHandler Link.up (newResponseWriter none) (getUsers "999")).rw
      "Content-Type" = [] ∧
    (getUser adaHandler Link.up (newResponseWriter none) (getUsers "999")).panicked = none) :=
  ⟨rfl, rfl, getUser_not_found adaHandler Link.up none "999" [] rfl rfl⟩

/-- C5. Last-write overwrite: when two objects `a` and `b` with the same string id `s`
are created one after the other, both answered 201, a `getUser` for `s` that reaches
the store answers 200 with a JSON body in which every field name of `b` is bound to
the text of the value `b` gives it (a string as itself, a number as its decimal text,
`true` and `false` as `1` and `0`, `null` as the empty string). -/
theorem recreate_returns_second (uh : userHandler) (l1 l2 : Link)
    (a b : List (String × JSONDoc)) (s : String)
    (hida : mapGet (decodeObject a) "id" = some (.string s))
    (hidb : mapGet (decodeObject b) "id" = some (.string s))
    (ha : (servePost uh l1 (jsonBody (.object a))).rw.status = StatusCreated)
    (hb : (servePost (next (servePost uh l1 (jsonBody (.object a)))) l2
      (jsonBody (.object b))).rw.status = StatusCreated) :
    ∃ info,
      (serveGet (next (servePost (next (servePost uh l1 (jsonBody (.object a)))) l2
        (jsonBody (.object b)))) Link.up s).rw.status = StatusOK ∧
      (serveGet (next (servePost (next (servePost uh l1 (jsonBody (.object a)))) l2
        (jsonBody (.object b)))) Link.up s).rw.body = [.json info] ∧
      (∀ k, k ∈ mapKeys b →
        ∃ d v t, (k, d) ∈ b ∧ decodeValue d = v ∧ mapGet (decodeObject b) k = some v ∧
          writeArg v = .ok t ∧ mapGet info k = some t) ∧
      (∀ k x, mapGet (decodeObject b) k = some (.string x) → mapGet info k = some x) ∧
      (∀ k x, mapGet (decodeObject b) k = some (.number x) → mapGet info k = some x) ∧
      (∀ k, mapGet (decodeObject b) k = some (.bool true) → mapGet info k = some "1") ∧
      (∀ k, mapGet (decodeObject b) k = some (.bool false) → mapGet info k = some "0") ∧
      (∀ k, mapGet (decodeObject b) k = some .null → mapGet info k = some "") := by
  obtain ⟨_, _, _, _, _⟩ := hash_after_created uh l1 a s hida ha
  obtain ⟨fields, hkey, hne, hsub, _⟩ :=
    hash_after_created (next (servePost uh l1 (jsonBody (.object a)))) l2 b s hidb hb
  refine ⟨fields, ?_, ?_, ?_, stored_text (decodeObject b) fields hsub⟩
  · rw [serveGet_found _ s fields hkey hne]
  · rw [serveGet_found _ s fields hkey hne]
  · intro k hk
    obtain ⟨d, v, hd, hdv, hv⟩ := decodeObject_of_name b k hk
    obtain ⟨t, ht, hg⟩ := hsub k v hv
    exact ⟨d, v, t, hd, hdv, hv, ht, hg⟩

/-- Witness for C5: `{"id":"42","name":"Ada"}` followed by
`{"id":"42","name":"Grace","lang":"COBOL"}`. -/
theorem recreate_returns_second_witness :
    mapGet (decodeObject adaMembers) "id" = some (.string "42") ∧
    mapGet (decodeObject graceMembers) "id" = some (.string "42") ∧
    (servePost emptyHandler Link.up (jsonBody (.object adaMembers))).rw.status =
      StatusCreated ∧
    (servePost (next (servePost emptyHandler Link.up (jsonBody (.object adaMembers)))) Link.up
      (jsonBody (.object graceMembers))).rw.status = StatusCreated ∧
    ∃ info,
      (serveGet (next (servePost (next (servePost emptyHandler Link.up
        (jsonBody (.object adaMembers)))) Link.up
        (jsonBody (.object graceMembers)))) Link.up "42").rw.status = StatusOK ∧
      (serveGet (next (servePost (next (servePost emptyHandler Link.up
        (jsonBody (.object adaMembers)))) Link.up
        (jsonBody (.object graceMembers)))) Link.up "42").rw.body = [.json info] ∧
      (∀ k, k ∈ mapKeys graceMembers →
        ∃ d v t, (k, d) ∈ graceMembers ∧ decodeValue d = v ∧
          mapGet (decodeObject graceMembers) k = some v ∧
          writeArg v = .ok t ∧ mapGet info k = some t) ∧
      (∀ k x, mapGet (decodeObject graceMembers) k = some (.string x) →
        mapGet info k = some x) ∧
      (∀ k x, mapGet (decodeObject graceMembers) k = some (.number x) →
        mapGet info k = some x) ∧
      (∀ k, mapGet (decodeObject graceMembers) k = some (.bool true) →
        mapGet info k = some "1") ∧
      (∀ k, mapGet (decodeObject graceMembers) k = some (.bool false) →
        mapGet info k = some "0") ∧
      (∀ k, mapGet (decodeObject graceMembers) k = some .null → mapGet info k = some "") :=
  ⟨rfl, rfl, rfl, rfl,
    recreate_returns_second emptyHandler Link.up Link.up adaMembers graceMembers "42"
      rfl rfl rfl rfl⟩

/-- C10. Merge on re-create: when two objects `a` and `b` with the same string id `s`
are created one after the other, both answered 201, the hash under `"user:" ++ s` and
the JSON body of a following `getUser` (200) hold every field of `a` that `b` lacks,
with the text of the value from `a`, next to every field of `b` with the text of the
value from `b` (a string value being stored as itself). -/
theorem recreate_merges (uh : userHandler) (l1 l2 : Link)
    (a b : List (String × JSONDoc)) (s : String)
    (hida : mapGet (decodeObject a) "id" = some (.string s))
    (hidb : mapGet (decodeObject b) "id" = some (.string s))
    (ha : (servePost uh l1 (jsonBody (.object a))).rw.status = StatusCreated)
    (hb : (servePost (next (servePost uh l1 (jsonBody (.object a)))) l2
      (jsonBody (.object b))).rw.status = StatusCreated) :
    ∃ info,
      mapGet (servePost (next (servePost uh l1 (jsonBody (.object a)))) l2
        (jsonBody (.object b))).client.db (keyPrefix ++ s) = some (.hash info) ∧
      (serveGet (next (servePost (next (servePost uh l1 (jsonBody (.object a)))) l2
        (jsonBody (.object b)))) Link.up s).rw.status = StatusOK ∧
      (serveGet (next (servePost (next (servePost uh l1 (jsonBody (.object a)))) l2
        (jsonBody (.object b)))) Link.up s).rw.body = [.json info] ∧
      (∀ k, k ∈ mapKeys a → k ∉ mapKeys b →
        ∃ d v t, (k, d) ∈ a ∧ decodeValue d = v ∧ mapGet (decodeObject a) k = some v ∧
          writeArg v = .ok t ∧ mapGet info k = some t) ∧
      (∀ k, k ∈ mapKeys b →
        ∃ d v t, (k, d) ∈ b ∧ decodeValue d = v ∧ mapGet (decodeObject b) k = some v ∧
          writeArg v = .ok t ∧ mapGet info k = some t) ∧
      (∀ k x, k ∉ mapKeys b → mapGet (decodeObject a) k = some (.string x) →
        mapGet info k = some x) ∧
      (∀ k x, mapGet (decodeObject b) k = some (.string x) → mapGet info k = some x) := by
  obtain ⟨fa, hkeya, _, hsuba, _⟩ := hash_after_created uh l1 a s hida ha
  obtain ⟨fb, hkeyb, hneb, hsubb, hrestb⟩ :=
    hash_after_created (next (servePost uh l1 (jsonBody (.object a)))) l2 b s hidb hb
  have hold : hashAt (next (servePost uh l1 (jsonBody (.object a)))).client.db
      (keyPrefix ++ s) = fa := by
    simp only [next, hashAt, hkeya]
  refine ⟨fb, hkeyb, ?_, ?_, ?_, ?_, ?_, (stored_text (decodeObject b) fb hsubb).1⟩
  · rw [serveGet_found _ s fb hkeyb hneb]
  · rw [serveGet_found _ s fb hkeyb hneb]
  · intro k hka hkb
    obtain ⟨d, v, hd, hdv, hv⟩ := decodeObject_of_name a k hka
    obtain ⟨t, ht, hg⟩ := hsuba k v hv
    refine ⟨d, v, t, hd, hdv, hv, ht, ?_⟩
    rw [hrestb k hkb, hold]
    exact hg
  · intro k hk
    obtain ⟨d, v, hd, hdv, hv⟩ := decodeObject_of_name b k hk
    obtain ⟨t, ht, hg⟩ := hsubb k v hv
    exact ⟨d, v, t, hd, hdv, hv, ht, hg⟩
  · intro k x hkb hv
    rw [hrestb k hkb, hold]
    exact (stored_text (decodeObject a) fa hsuba).1 k x hv

/-- Witness for C10: `{"id":"42","name":"Grace","lang":"COBOL"}` followed by
`{"id":"42","name":"Ada"}`; the field `lang` survives. -/
theorem recreate_merges_witness :
    mapGet (decodeObject graceMembers) "id" = some (.string "42") ∧
    mapGet (decodeObject adaMembers) "id" = some (.string "42") ∧
    (servePost emptyHandler Link.up (jsonBody (.object graceMembers))).rw.status =
      StatusCreated ∧
    (servePost (next (servePost emptyHandler Link.up (jsonBody (.object graceMembers))))
      Link.up (jsonBody (.object adaMembers))).rw.status = StatusCreated ∧
    ∃ info,
      mapGet (servePost (next (servePost emptyHandler Link.up
        (jsonBody (.object graceMembers)))) Link.up
        (jsonBody (.object adaMembers))).client.db (keyPrefix ++ "42") = some (.hash info) ∧
      (serveGet (next (servePost (next (servePost emptyHandler Link.up
        (jsonBody (.object graceMembers)))) Link.up
        (jsonBody (.object adaMembers)))) Link.up "42").rw.status = StatusOK ∧
      (serveGet (next (servePost (next (servePost emptyHandler Link.up
        (jsonBody (.object graceMembers)))) Link.up
        (jsonBody (.object adaMembers)))) Link.up "42").rw.body = [.json info] ∧
      (∀ k, k ∈ mapKeys graceMembers → k ∉ mapKeys adaMembers →
        ∃ d v t, (k, d) ∈ graceMembers ∧ decodeValue d = v ∧
          mapGet (decodeObject graceMembers) k = some v ∧
          writeArg v = .ok t ∧ mapGet info k = some t) ∧
      (∀ k, k ∈ mapKeys adaMembers →
        ∃ d v t, (k, d) ∈ adaMembers ∧ decodeValue d = v ∧
          mapGet (decodeObject adaMembers) k = some v ∧
          writeArg v = .ok t ∧ mapGet info k = some t) ∧
      (∀ k x, k ∉ mapKeys adaMembers →
        mapGet (decodeObject graceMembers) k = some (.string x) → mapGet info k = some x) ∧
      (∀ k x, mapGet (decodeObject adaMembers) k = some (.string x) →
        mapGet info k = some x) :=
  ⟨rfl, rfl, rfl, rfl,
    recreate_merges emptyHandler Link.up Link.up graceMembers adaMembers "42" rfl rfl rfl rfl⟩

/-- The scenario behind C5 and C10, evaluated: after `{"id":"42","name":"Grace",
"lang":"COBOL"}` and then `{"id":"42","name":"Ada"}`, the body of `GET /users/42` is
`{"id":"42","name":"Ada","lang":"COBOL"}`. -/
theorem scenario_recreate :
    (serveGet (next (servePost (next (servePost emptyHandler Link.up
      (jsonBody (.object graceMembers)))) Link.up
      (jsonBody (.object adaMembers)))) Link.up "42").rw.body =
      [.json [("id", "42"), ("name", "Ada"), ("lang", "COBOL")]] :=
  rfl

/-- C6. For every `createUser` on a JSON object that decodes without error, with string
id `s`, whose `HSet` succeeds, the response is 201 with an empty body and no header;
exactly one store call is made, the `HSet` on `"user:" ++ s`; afterwards that key
holds a hash, and the value under every other key is what it was. -/
theorem createUser_writes_one_key (uh : userHandler) (link : Link)
    (members : List (String × JSONDoc)) (u : GoMap JSONValue) (s : String) (n : Nat)
    (hu : jsonUnmarshal (.document (.object members)) = .ok u)
    (hid : mapGet u "id" = some (.string s))
    (hset : (HSet uh.client link (keyPrefix ++ s) u).1 = .ok n) :
    (servePost uh link (jsonBody (.object members))).rw.status = StatusCreated ∧
    (servePost uh link (jsonBody (.object members))).rw.body = [] ∧
    (servePost uh link (jsonBody (.object members))).rw.sent = [] ∧
    (servePost uh link (jsonBody (.object members))).panicked = none ∧
    (servePost uh link (jsonBody (.object members))).client.calls =
      uh.client.calls ++ [Call.hset (keyPrefix ++ s) u] ∧
    (∃ fields, mapGet (servePost uh link (jsonBody (.object members))).client.db
      (keyPrefix ++ s) = some (.hash fields) ∧ fields ≠ []) ∧
    ∀ key, key ≠ keyPrefix ++ s →
      mapGet (servePost uh link (jsonBody (.object members))).client.db key =
        mapGet uh.client.db key := by
  obtain ⟨hfit, hdec⟩ := jsonUnmarshal_object_ok members u hu
  subst hdec
  obtain ⟨args, ha, hp⟩ := servePost_ok uh link members s n hfit hid hset
  have hcreated : (servePost uh link (jsonBody (.object members))).rw.status = StatusCreated := by
    rw [hp]
  obtain ⟨fields, hkey, hne, _, _⟩ := hash_after_created uh link members s hid hcreated
  refine ⟨hcreated, ?_, ?_, ?_, ?_, ⟨fields, hkey, hne⟩, ?_⟩
  · rw [hp]
  · rw [hp]
  · rw [hp]
  · rw [hp]
  · intro key hkne
    rw [hp]
    exact mapGet_mapSet_ne uh.client.db (keyPrefix ++ s) key _ hkne

/-- Witness for C6: `{"id":"42","name":"Grace","lang":"COBOL"}` posted to a store
that already has `user:42`. -/
theorem createUser_writes_one_key_witness :
    jsonUnmarshal (.document (.object graceMembers)) = .ok (decodeObject graceMembers) ∧
    mapGet (decodeObject graceMembers) "id" = some (.string "42") ∧
    (HSet adaHandler.client Link.up (keyPrefix ++ "42") (decodeObject graceMembers)).1 = .ok 1 ∧
    ((servePost adaHandler Link.up (jsonBody (.object graceMembers))).rw.status =
      StatusCreated ∧
    (servePost adaHandler Link.up (jsonBody (.object graceMembers))).rw.body = [] ∧
    (servePost adaHandler Link.up (jsonBody (.object graceMembers))).rw.sent = [] ∧
    (servePost adaHandler Link.up (jsonBody (.object graceMembers))).panicked = none ∧
    (servePost adaHandler Link.up (jsonBody (.object graceMembers))).client.calls =
      adaHandler.client.calls ++ [Call.hset (keyPrefix ++ "42") (decodeObject graceMembers)] ∧
    (∃ fields, mapGet (servePost adaHandler Link.up (jsonBody (.object graceMembers))).client.db
      (keyPrefix ++ "42") = some (.hash fields) ∧ fields ≠ []) ∧
    ∀ key, key ≠ keyPrefix ++ "42" →
      mapGet (servePost adaHandler Link.up (jsonBody (.object graceMembers))).client.db key =
        mapGet adaHandler.client.db key) :=
  ⟨rfl, rfl, rfl,
    createUser_writes_one_key adaHandler Link.up graceMembers (decodeObject graceMembers)
      "42" 1 rfl rfl rfl⟩

/-- C7. Store failures map to server errors: when the `HSet` of `createUser` returns
an error `e`, the response is 500 with body `e` and a newline (so not 201); when the
`HGetAll` of `getUser` returns an error `e`, the response is 500 with body `e` and a
newline (so neither 200 nor 404). -/
theorem store_error_is_500 :
    (∀ (uh : userHandler) (link : Link) (p : Payload) (u : GoMap JSONValue) (s e : String),
      jsonUnmarshal p = .ok u → mapGet u "id" = some (.string s) →
      (HSet uh.client link (keyPrefix ++ s) u).1 = .error e →
        (servePost uh link (.bytes p)).rw.status = StatusInternalServerError ∧
        (servePost uh link (.bytes p)).rw.body = [.text (e ++ "\n")] ∧
        (servePost uh link (.bytes p)).rw.status ≠ StatusCreated ∧
        (servePost uh link (.bytes p)).panicked = none) ∧
    (∀ (uh : userHandler) (link : Link) (userid e : String),
      (HGetAll uh.client link (keyPrefix ++ userid)).1 = .error e →
        (serveGet uh link userid).rw.status = StatusInternalServerError ∧
        (serveGet uh link userid).rw.body = [.text (e ++ "\n")] ∧
        (serveGet uh link userid).rw.status ≠ StatusOK ∧
        (serveGet uh link userid).rw.status ≠ StatusNotFound ∧
        (serveGet uh link userid).panicked = none) := by
  constructor
  · intro uh link p u s e hu hid herr
    have h := createUser_of_HSet_error uh link (newResponseWriter none)
      (postUsers (.bytes p)) p u s e rfl hu hid herr
    unfold servePost
    rw [h, httpError_fresh]
    simp [StatusInternalServerError, StatusCreated]
  · intro uh link userid e herr
    have hr : (HGetAll uh.client link (keyPrefix ++ muxVar (getUsers userid) "userid")).1 =
        .error e := by
      rw [muxVar_getUsers]
      exact herr
    have h := getUser_of_HGetAll_error uh link (newResponseWriter none) (getUsers userid) e hr
    unfold serveGet
    rw [h, httpError_fresh]
    simp [StatusInternalServerError, StatusOK, StatusNotFound]

/-- Witness for C7: a `POST` while the store is unreachable, and a `GET` of a key
that holds a plain string. -/
theorem store_error_is_500_witness :
    ((HSet emptyHandler.client (Link.down "dial tcp: i/o timeout") (keyPrefix ++ "42")
        (decodeObject adaMembers)).1 = .error "dial tcp: i/o timeout" ∧
      (servePost emptyHandler (Link.down "dial tcp: i/o timeout")
        (jsonBody (.object adaMembers))).rw.status = StatusInternalServerError ∧
      (servePost emptyHandler (Link.down "dial tcp: i/o timeout")
        (jsonBody (.object adaMembers))).rw.body = [.text ("dial tcp: i/o timeout" ++ "\n")]) ∧
    ((HGetAll strayHandler.client Link.up (keyPrefix ++ "42")).1 = .error wrongType ∧
      (serveGet strayHandler Link.up "42").rw.status = StatusInternalServerError ∧
      (serveGet strayHandler Link.up "42").rw.body = [.text (wrongType ++ "\n")]) :=
  ⟨⟨rfl,
      (store_error_is_500.1 emptyHandler (Link.down "dial tcp: i/o timeout")
        (.document (.object adaMembers)) (decodeObject adaMembers) "42"
        "dial tcp: i/o timeout" rfl rfl rfl).1,
      (store_error_is_500.1 emptyHandler (Link.down "dial tcp: i/o timeout")
        (.document (.object adaMembers)) (decodeObject adaMembers) "42"
        "dial tcp: i/o timeout" rfl rfl rfl).2.1⟩,
    ⟨rfl,
      (store_error_is_500.2 strayHandler Link.up "42" wrongType rfl).1,
      (store_error_is_500.2 strayHandler Link.up "42" wrongType rfl).2.1⟩⟩

/-- A store read that succeeds went over a working link. -/
theorem HGetAll_ok_link (c : Client) (link : Link) (key : String) (info : GoMap String)
    (h : (HGetAll c link key).1 = .ok info) : link = Link.up := by
  unfold HGetAll at h
  cases link with
  | up => rfl
  | down err => simp at h
  | replyLost err => simp [received] at h

/-- C8. For every user identifier and every store in which `"user:" ++ userid` holds
a non-empty hash, a `getUser` whose store read succeeds answers 200 with header
`Content-Type: application/json` and the JSON object of exactly the fields of that
hash as body; the only store call is `HGetAll` on `"user:" ++ userid`, and the store
is left as it was. -/
theorem getUser_found (uh : userHandler) (link : Link) (userid : String)
    (fields info : GoMap String)
    (hkey : mapGet uh.client.db (keyPrefix ++ userid) = some (.hash fields))
    (hne : fields ≠ [])
    (hread : (HGetAll uh.client link (keyPrefix ++ userid)).1 = .ok info) :
    info = fields ∧
    (serveGet uh link userid).rw.status = StatusOK ∧
    (serveGet uh link userid).rw.sent = [("Content-Type", ["application/json"])] ∧
    sentValues (serveGet uh link userid).rw "Content-Type" = ["application/json"] ∧
    (serveGet uh link userid).rw.body = [.json fields] ∧
    (serveGet uh link userid).panicked = none ∧
    (serveGet uh link userid).client.calls =
      uh.client.calls ++ [Call.hgetall (keyPrefix ++ userid)] ∧
    (serveGet uh link userid).client.db = uh.client.db := by
  have hl := HGetAll_ok_link uh.client link _ info hread
  subst hl
  have hinfo : info = fields := by
    rw [HGetAll_ok uh.client Link.up _ info hread]
    simp [hashAt, hkey]
  rw [serveGet_found uh userid fields hkey hne]
  simp [hinfo, sentValues, mapGet]

/-- Witness for C8: `GET /users/42` on a store holding `id = 42, name = Ada`. -/
theorem getUser_found_witness :
    mapGet adaHandler.client.db (keyPrefix ++ "42") =
      some (.hash [("id", "42"), ("name", "Ada")]) ∧
    ([("id", "42"), ("name", "Ada")] : GoMap String) ≠ [] ∧
    (HGetAll adaHandler.client Link.up (keyPrefix ++ "42")).1 =
      .ok [("id", "42"), ("name", "Ada")] ∧
    (([("id", "42"), ("name", "Ada")] : GoMap String) = [("id", "42"), ("name", "Ada")] ∧
    (serveGet adaHandler Link.up "42").rw.status = StatusOK ∧
    (serveGet adaHandler Link.up "42").rw.sent = [("Content-Type", ["application/json"])] ∧
    sentValues (serveGet adaHandler Link.up "42").rw "Content-Type" = ["application/json"] ∧
    (serveGet adaHandler Link.up "42").rw.body = [.json [("id", "42"), ("name", "Ada")]] ∧
    (serveGet adaHandler Link.up "42").panicked = none ∧
    (serveGet adaHandler Link.up "42").client.calls =
      adaHandler.client.calls ++ [Call.hgetall (keyPrefix ++ "42")] ∧
    (serveGet adaHandler Link.up "42").client.db = adaHandler.client.db) :=
  ⟨rfl, by simp, rfl,
    getUser_found adaHandler Link.up "42" [("id", "42"), ("name", "Ada")]
      [("id", "42"), ("name", "Ada")] rfl (by simp) rfl⟩

/-- C9 (the code departs from the claim). When the write of the encoded body fails
in `getUser`, the response has already been committed by that write with status 200
and `Content-Type: application/json`: the 500 of the following `http.Error` and the
later `Header().Del` only change the handler's header map, not what was committed. -/
theorem getUser_encode_failure (uh : userHandler) (userid err : String)
    (fields : GoMap String)
    (hkey : mapGet uh.client.db (keyPrefix ++ userid) = some (.hash fields))
    (hne : fields ≠ []) :
    (jsonEncode (headerAdd (newResponseWriter (some err)) "Content-Type" "application/json")
      fields).1 = some err ∧
    (getUser uh Link.up (newResponseWriter (some err)) (getUsers userid)).rw.status =
      StatusOK ∧
    (getUser uh Link.up (newResponseWriter (some err)) (getUsers userid)).rw.status ≠
      StatusInternalServerError ∧
    sentValues (getUser uh Link.up (newResponseWriter (some err)) (getUsers userid)).rw
      "Content-Type" = ["application/json"] ∧
    (getUser uh Link.up (newResponseWriter (some err)) (getUsers userid)).rw.header =
      [("X-Content-Type-Options", ["nosniff"])] := by
  have hr : (HGetAll uh.client Link.up (keyPrefix ++ muxVar (getUsers userid) "userid")).1 =
      .ok fields := by
    rw [muxVar_getUsers]
    exact HGetAll_up_of_hash uh.client _ fields hkey
  have hlen : ¬ fields.length = 0 := by
    intro h0
    exact hne (List.length_eq_zero.1 h0)
  rw [getUser_of_HGetAll_ok uh Link.up _ _ fields hr, if_neg hlen, jsonEncode_broken]
  simp [httpError, headerSet, headerDel, writeHeader, write, mapSet, sentValues, mapGet,
    StatusOK, StatusInternalServerError]

/-- Witness for C9: `GET /users/42` with the client connection broken. -/
theorem getUser_encode_failure_witness :
    mapGet adaHandler.client.db (keyPrefix ++ "42") =
      some (.hash [("id", "42"), ("name", "Ada")]) ∧
    ([("id", "42"), ("name", "Ada")] : GoMap String) ≠ [] ∧
    ((jsonEncode (headerAdd (newResponseWriter (some "write: broken pipe")) "Content-Type"
      "application/json") [("id", "42"), ("name", "Ada")]).1 = some "write: broken pipe" ∧
    (getUser adaHandler Link.up (newResponseWriter (some "write: broken pipe"))
      (getUsers "42")).rw.status = StatusOK ∧
    (getUser adaHandler Link.up (newResponseWriter (some "write: broken pipe"))
      (getUsers "42")).rw.status ≠ StatusInternalServerError ∧
    sentValues (getUser adaHandler Link.up (newResponseWriter (some "write: broken pipe"))
      (getUsers "42")).rw "Content-Type" = ["application/json"] ∧
    (getUser adaHandler Link.up (newResponseWriter (some "write: broken pipe"))
      (getUsers "42")).rw.header = [("X-Content-Type-Options", ["nosniff"])]) :=
  ⟨rfl, by simp,
    getUser_encode_failure adaHandler "42" "write: broken pipe"
      [("id", "42"), ("name", "Ada")] rfl (by simp)⟩

end Azmredis
